import Mathlib

/-!
Shallow embedding of the data-cleaning and aggregation core of `src/report.py`
(a Streamlit population dashboard).  Pandas data frames are modelled as a list
of column names together with a list of rows, each row a list of cell values.
Numeric cells are modelled as integers (all claim-relevant quantities are
integer counts or concrete literals); `NaN` is the explicit `na` value.
Operations that pandas performs by raising exceptions (column-length mismatch
on `df.columns = ...`, `KeyError` on a missing column label) are modelled with
`Except`.
-/

namespace PopReport

/-- A cell of a data frame: a raw string, a parsed number, or a missing value
(pandas `NaN`). -/
inductive Val where
  | vstr (s : String)
  | vnum (n : Int)
  | na
deriving DecidableEq, Repr

/-- True exactly for parsed numeric cells. -/
def Val.isVnum : Val → Bool
  | .vnum _ => true
  | _ => false

/-- True for cells that are a parsed number or missing — the only shapes a
numeric (float-dtype) pandas column can hold. -/
def Val.isNumOrNa : Val → Bool
  | .vnum _ => true
  | .na => true
  | .vstr _ => false

/-- The integer of a numeric cell, `0` otherwise. -/
def Val.toInt : Val → Int
  | .vnum n => n
  | _ => 0

/-- A pandas `DataFrame`: column labels plus rows of cells. -/
structure DF where
  cols : List String
  rows : List (List Val)
deriving DecidableEq, Repr

/-- Errors pandas raises in the modelled fragment: assigning a label list whose
length differs from the column count (`ValueError: Length mismatch`), and
indexing a column label that does not exist (`KeyError`).  The spec's
`SchemaError` taxonomy entry corresponds to the `keyError` case. -/
inductive CleanError where
  | lengthMismatch (labels actual : Nat)
  | keyError (col : String)
deriving DecidableEq, Repr

/-- Digits-only string body to a natural number; `none` if empty or any
non-digit appears. -/
def digitsToNat (cs : List Char) : Option Nat :=
  if cs.isEmpty then none
  else if cs.all Char.isDigit then
    some (cs.foldl (fun acc c => acc * 10 + (c.toNat - 48)) 0)
  else none

/-- Integer literal parser: optional sign followed by digits.  Models the
fragment of `pd.to_numeric` exercised by the program, whose numeric fields are
integer counts (fractional rates are outside the integer model). -/
def parseIntStr (s : String) : Option Int :=
  match s.toList with
  | '-' :: rest => (digitsToNat rest).map (fun n => -(n : Int))
  | '+' :: rest => (digitsToNat rest).map (fun n => (n : Int))
  | cs => (digitsToNat cs).map (fun n => (n : Int))

/-- Remove every comma and every space, as
`.str.replace(',', '').str.replace(' ', '')` does. -/
def stripSeparators (s : String) : String :=
  String.mk (s.toList.filter (fun c => c != ',' && c != ' '))

/-- One cell under
`pd.to_numeric(x.astype(str).str.replace(',', '').str.replace(' ', ''), errors='coerce')`:
strings are stripped of separators and parsed, parse failure yields `NaN`,
numbers stay numbers, `NaN` stays `NaN`. -/
def coerceNumeric : Val → Val
  | .vstr s =>
    match parseIntStr (stripSeparators s) with
    | some n => .vnum n
    | none => .na
  | .vnum n => .vnum n
  | .na => .na

/-- Apply `coerceNumeric` to cell `i` of every row (one `df[col] = pd.to_numeric(...)`
assignment). -/
def coerceColumn (i : Nat) (rows : List (List Val)) : List (List Val) :=
  rows.map (fun r => r.set i (coerceNumeric (r.getD i .na)))

/-- The canonical 24-name schema assigned in `clean_population_data`
(`report.py` lines 71-74). -/
def canonical_columns : List String :=
  ["団体コード", "都道府県名", "男性人口", "女性人口", "総人口", "世帯数",
   "転入国内", "転入国外", "転入計", "出生数", "その他増", "増加計",
   "転出国内", "転出国外", "転出計", "死亡数", "その他減", "減少計",
   "人口増減数", "人口増減率", "自然増減数", "自然増減率", "社会増減数", "社会増減率"]

/-- `df.columns = names`: pandas accepts the assignment only when the label
list has exactly one label per column, else raises a length-mismatch
`ValueError`. -/
def set_axis (df : DF) (names : List String) : Except CleanError DF :=
  if names.length = df.cols.length then .ok { cols := names, rows := df.rows }
  else .error (.lengthMismatch names.length df.cols.length)

/-- Lines 76-78 of `report.py`:
`if len(df.columns) >= len(columns): df.columns = columns[:len(df.columns)]`. -/
def rename_step (df : DF) : Except CleanError DF :=
  if canonical_columns.length ≤ df.cols.length then
    set_axis df (canonical_columns.take df.cols.length)
  else .ok df

/-- Index of a column label, as pandas label lookup (first occurrence). -/
def colIdx (df : DF) (c : String) : Option Nat :=
  df.cols.findIdx? (fun x => x == c)

/-- Line 81 of `report.py`: `df = df[df['都道府県名'] != '合計']`.  A missing
`都道府県名` label raises `KeyError`. -/
def drop_total_step (df : DF) : Except CleanError DF :=
  match colIdx df "都道府県名" with
  | none => .error (.keyError "都道府県名")
  | some i => .ok { cols := df.cols, rows := df.rows.filter (fun r => r.getD i .na != Val.vstr "合計") }

/-- The numeric-designated columns of `clean_population_data`
(`report.py` lines 84-86). -/
def numeric_cols : List String :=
  ["男性人口", "女性人口", "総人口", "世帯数", "出生数", "死亡数",
   "人口増減数", "人口増減率", "自然増減数", "自然増減率", "社会増減数", "社会増減率"]

/-- One iteration of the coercion loop: coerce the column named `c` if that
label exists, else leave the frame unchanged (`if col in df.columns`). -/
def coerce_one (df : DF) (c : String) : DF :=
  match colIdx df c with
  | some i => { cols := df.cols, rows := coerceColumn i df.rows }
  | none => df

/-- The coercion loop over a list of column names (lines 88-91). -/
def coerce_fold (names : List String) (df : DF) : DF :=
  names.foldl coerce_one df

/-- Lines 83-91 of `report.py`: coerce every numeric-designated column. -/
def coerce_step (df : DF) : DF :=
  coerce_fold numeric_cols df

/-- `clean_population_data` (`report.py` lines 65-93): positional renaming,
dropping the `合計` sentinel row, then numeric coercion. -/
def clean_population_data (df : DF) : Except CleanError DF := do
  let df1 ← rename_step df
  let df2 ← drop_total_step df1
  return coerce_step df2

/-- Line 104 of `report.py`: `df[df.iloc[:, 1] == '合計']` — the rows whose
second column (position 1) holds the `合計` sentinel. -/
def age_total_rows (df : DF) : List (List Val) :=
  df.rows.filter (fun r => r.getD 1 .na == Val.vstr "合計")

/-- Cellwise walk of a row carrying the absolute position `k`: positions in
`[3, ncols)` are numerically coerced, the rest kept. -/
def coerce_from (k ncols : Nat) : List Val → List Val
  | [] => []
  | v :: t => (if 3 ≤ k ∧ k < ncols then coerceNumeric v else v) :: coerce_from (k + 1) ncols t

/-- Lines 107-112 of `report.py`: numeric coercion of `total_row.columns[3:]`,
i.e. of every cell from position 3 up to the column count (the frame's columns
are assumed label-distinct, so the by-label loop acts positionally). -/
def coerce_age_row (ncols : Nat) (r : List Val) : List Val :=
  coerce_from 0 ncols r

/-- One loop iteration of `clean_age_data`: keep the year only when its frame
has at least one `合計` row (position 1), with positions `3:` coerced. -/
def process_age_year (yd : Nat × DF) : Option (Nat × DF) :=
  let tr := age_total_rows yd.2
  if tr.isEmpty then none
  else some (yd.1, { cols := yd.2.cols, rows := tr.map (coerce_age_row yd.2.cols.length) })

/-- `clean_age_data` (`report.py` lines 95-115). -/
def clean_age_data (ageData : List (Nat × DF)) : List (Nat × DF) :=
  ageData.filterMap process_age_year

/-- `create_population_pyramid` (`report.py` lines 123-138), reduced to its
data core: the pair of cell slices `iloc[0, 4:25]` of the first row tagged
`男` and the first row tagged `女` (column position 2), or `none` when the
year or either sex row is absent.  The later negation of the male values is
rendering only. -/
def create_population_pyramid (ageData : List (Nat × DF)) (year : Nat) :
    Option (List Val × List Val) :=
  match ageData.lookup year with
  | none => none
  | some df =>
    match df.rows.filter (fun r => r.getD 2 .na == Val.vstr "男"),
          df.rows.filter (fun r => r.getD 2 .na == Val.vstr "女") with
    | m :: _, f :: _ => some ((m.drop 4).take 21, (f.drop 4).take 21)
    | _, _ => none

/-- Cohort index lists of `create_time_series_chart` (lines 204-208):
`[0, 1, 2]`, `list(range(3, 13))`, `list(range(13, 21))`. -/
def child_indices : List Nat := [0, 1, 2]

/-- Working-age cohort bracket indices, `list(range(3, 13))`. -/
def working_indices : List Nat := List.range' 3 10

/-- Elderly cohort bracket indices, `list(range(13, 21))`. -/
def elderly_indices : List Nat := List.range' 13 8

/-- `if pd.notna(val): total += val` on one cell: `NaN` is skipped, a number is
added, and a leftover raw string would be a Python `TypeError` (int + str),
modelled as `none`. -/
def addVal (acc : Option Int) (v : Val) : Option Int :=
  match acc, v with
  | none, _ => none
  | some a, .vnum n => some (a + n)
  | some a, .na => some a
  | some _, .vstr _ => none

/-- Lines 222-227 of `report.py`: the loop
`total = 0; for idx in indices: if idx + 4 < len(total_row.columns): ...`. -/
def cohort_total (ncols : Nat) (row : List Val) (idxs : List Nat) : Option Int :=
  idxs.foldl
    (fun acc idx => if idx + 4 < ncols then addVal acc (row.getD (idx + 4) .na) else acc)
    (some 0)

/-- Line 215 of `report.py`: `df[df.iloc[:, 2] == '計']`. -/
def year_total_row (df : DF) : List (List Val) :=
  df.rows.filter (fun r => r.getD 2 .na == Val.vstr "計")

/-- The year loop of `create_time_series_chart` (lines 213-230): years without
a `計` row are skipped; for the others the first such row yields the three
cohort sums.  `none` models a `TypeError` escaping the loop. -/
def time_series_rows : List (Nat × DF) → Option (List (Nat × Int × Int × Int))
  | [] => some []
  | (y, df) :: rest =>
    match year_total_row df with
    | [] => time_series_rows rest
    | row :: _ =>
      match cohort_total df.cols.length row child_indices,
            cohort_total df.cols.length row working_indices,
            cohort_total df.cols.length row elderly_indices,
            time_series_rows rest with
      | some a, some b, some c, some rs => some ((y, a, b, c) :: rs)
      | _, _, _, _ => none

/-- `create_time_series_chart` (lines 198-259) reduced to its data core: the
per-year cohort rows, `.ok none` when no year produced a row
(`if not time_series_data: return None`), `.error` when the loop raises. -/
def create_time_series_chart (ageData : List (Nat × DF)) :
    Except String (Option (List (Nat × Int × Int × Int))) :=
  match time_series_rows ageData with
  | none => .error "TypeError"
  | some [] => .ok none
  | some rs => .ok (some rs)

/-- Value of age bracket `i` of a reduced row, in the words of the spec: the
bracket's cell when it is in range and present, zero-contribution otherwise. -/
def bracket_value (ncols : Nat) (row : List Val) (i : Nat) : Int :=
  if i + 4 < ncols then (row.getD (i + 4) .na).toInt else 0

/-- Spec-words cohort sum: the sum of the bracket values over the cohort's
fixed index range, missing values contributing zero. -/
def cohort_total_spec (ncols : Nat) (row : List Val) (idxs : List Nat) : Int :=
  (idxs.map (bracket_value ncols row)).sum

/-- Spec-words time series: one row per year that has a usable total row,
other years omitted. -/
def time_series_rows_spec (ageData : List (Nat × DF)) : List (Nat × Int × Int × Int) :=
  ageData.filterMap (fun yd =>
    match year_total_row yd.2 with
    | [] => none
    | row :: _ =>
      some (yd.1,
            cohort_total_spec yd.2.cols.length row child_indices,
            cohort_total_spec yd.2.cols.length row working_indices,
            cohort_total_spec yd.2.cols.length row elderly_indices))

/-- The fixed year set of `load_data` (line 52). -/
def age_years : List Nat := [2022, 2023, 2024]

/-- `load_data` (`report.py` lines 42-63).  File I/O is abstracted as read
results: `popRead` for the population CSV, `ageRead y` for the year-`y`
age-distribution CSV, `none` meaning the read raised.  A failed population
read hits the outer `except` and yields `(None, None)`; a failed per-year read
hits the inner `except` and merely leaves that year out of the returned
mapping. -/
def load_data (popRead : Option DF) (ageRead : Nat → Option DF) :
    Option DF × Option (List (Nat × DF)) :=
  match popRead with
  | none => (none, none)
  | some pop =>
    (some pop, some (age_years.filterMap (fun y => (ageRead y).map (fun df => (y, df)))))

/-- Insert into a descending-sorted list, after every strictly greater element
(stable: an element inserted by `sort_desc` precedes the equal-keyed elements
already present, which came later in the original list). -/
def insert_desc {α : Type} (a : Int × α) : List (Int × α) → List (Int × α)
  | [] => [a]
  | b :: t => if a.1 < b.1 then b :: insert_desc a t else a :: b :: t

/-- Stable descending insertion sort by key. -/
def sort_desc {α : Type} : List (Int × α) → List (Int × α)
  | [] => []
  | a :: t => insert_desc a (sort_desc t)

/-- Insert into an ascending-sorted list, after every strictly smaller
element. -/
def insert_asc {α : Type} (a : Int × α) : List (Int × α) → List (Int × α)
  | [] => [a]
  | b :: t => if b.1 < a.1 then b :: insert_asc a t else a :: b :: t

/-- Stable ascending insertion sort by key. -/
def sort_asc {α : Type} : List (Int × α) → List (Int × α)
  | [] => []
  | a :: t => insert_asc a (sort_asc t)

/-- The rows of column `i`, keyed for ranking: `(key, original index, row)`.
Rows whose key cell is not a number are dropped — pandas `nlargest`/`nsmallest`
exclude `NaN` keys from the result. -/
def keyed_from (i k : Nat) : List (List Val) → List (Int × Nat × List Val)
  | [] => []
  | r :: t =>
    match r.getD i .na with
    | .vnum v => (v, k, r) :: keyed_from i (k + 1) t
    | _ => keyed_from i (k + 1) t

/-- The rows of column `i`, keyed for ranking, carrying original positions
starting at `0`. -/
def keyed (i : Nat) (rows : List (List Val)) : List (Int × Nat × List Val) :=
  keyed_from i 0 rows

/-- The tagged selection of `df.nlargest(n, col)` at column index `i`: stable
descending sort of the keyed rows, first `n` kept (pandas default
`keep='first'` prioritizes earlier rows among ties). -/
def sel_desc (n i : Nat) (rows : List (List Val)) : List (Int × Nat × List Val) :=
  (sort_desc (keyed i rows)).take n

/-- The tagged selection of `df.nsmallest(n, col)` at column index `i`. -/
def sel_asc (n i : Nat) (rows : List (List Val)) : List (Int × Nat × List Val) :=
  (sort_asc (keyed i rows)).take n

/-- `df.nlargest(n, col)` (used at line 319 of `report.py`): `KeyError` on a
missing label, else the selected rows in descending key order. -/
def nlargest (n : Nat) (df : DF) (col : String) : Except CleanError DF :=
  match colIdx df col with
  | none => .error (.keyError col)
  | some i => .ok { cols := df.cols, rows := (sel_desc n i df.rows).map (fun q => q.2.2) }

/-- `df.nsmallest(n, col)` (used at line 324 of `report.py`). -/
def nsmallest (n : Nat) (df : DF) (col : String) : Except CleanError DF :=
  match colIdx df col with
  | none => .error (.keyError col)
  | some i => .ok { cols := df.cols, rows := (sel_asc n i df.rows).map (fun q => q.2.2) }

/-! Concrete data frames used to instantiate the theorems below. -/

/-- A header of 25 anonymous raw columns (one more than the canonical schema). -/
def dfRaw25 : DF :=
  { cols := ["c0","c1","c2","c3","c4","c5","c6","c7","c8","c9","c10","c11","c12",
             "c13","c14","c15","c16","c17","c18","c19","c20","c21","c22","c23","c24"],
    rows := [] }

/-- A header of 23 anonymous raw columns (one fewer than the canonical schema). -/
def dfRaw23 : DF :=
  { cols := ["c0","c1","c2","c3","c4","c5","c6","c7","c8","c9","c10","c11","c12",
             "c13","c14","c15","c16","c17","c18","c19","c20","c21","c22"],
    rows := [] }

/-- A header of exactly 24 anonymous raw columns. -/
def dfRaw24 : DF :=
  { cols := ["c0","c1","c2","c3","c4","c5","c6","c7","c8","c9","c10","c11","c12",
             "c13","c14","c15","c16","c17","c18","c19","c20","c21","c22","c23"],
    rows := [] }

/-- A malformed two-column frame without a prefecture-name column. -/
def dfTwoCols : DF :=
  { cols := ["a", "b"], rows := [[Val.vstr "x", Val.vstr "y"]] }

/-- A raw prefecture row (locale-formatted numerals, rate fields as strings). -/
def rowTokyoRaw : List Val :=
  [Val.vstr "01", Val.vstr "東京都", Val.vstr "7,000,000", Val.vstr "7,200,000",
   Val.vstr "14,200,000", Val.vstr "6000", Val.vstr "1", Val.vstr "2", Val.vstr "3",
   Val.vstr "4", Val.vstr "5", Val.vstr "6", Val.vstr "7", Val.vstr "8", Val.vstr "9",
   Val.vstr "10", Val.vstr "11", Val.vstr "12", Val.vstr "13", Val.vstr "0",
   Val.vstr "14", Val.vstr "15", Val.vstr "16", Val.vstr "17"]

/-- The raw grand-total sentinel row. -/
def rowTotalRaw : List Val :=
  [Val.vstr "00", Val.vstr "合計", Val.vstr "9,000,000", Val.vstr "9,100,000",
   Val.vstr "18,100,000", Val.vstr "8000", Val.vstr "1", Val.vstr "2", Val.vstr "3",
   Val.vstr "4", Val.vstr "5", Val.vstr "6", Val.vstr "7", Val.vstr "8", Val.vstr "9",
   Val.vstr "10", Val.vstr "11", Val.vstr "12", Val.vstr "13", Val.vstr "1",
   Val.vstr "14", Val.vstr "15", Val.vstr "16", Val.vstr "17"]

/-- A well-formed 24-column raw population frame: one prefecture row and the
`合計` sentinel row. -/
def dfRawOK : DF := { cols := dfRaw24.cols, rows := [rowTokyoRaw, rowTotalRaw] }

/-- The cleaned form of `dfRawOK`: canonical labels, sentinel row gone, the
numeric-designated cells parsed. -/
def dfCleanOK : DF :=
  { cols := canonical_columns,
    rows := [[Val.vstr "01", Val.vstr "東京都", Val.vnum 7000000, Val.vnum 7200000,
              Val.vnum 14200000, Val.vnum 6000, Val.vstr "1", Val.vstr "2", Val.vstr "3",
              Val.vnum 4, Val.vstr "5", Val.vstr "6", Val.vstr "7", Val.vstr "8",
              Val.vstr "9", Val.vnum 10, Val.vstr "11", Val.vstr "12", Val.vnum 13,
              Val.vnum 0, Val.vnum 14, Val.vnum 15, Val.vnum 16, Val.vnum 17]] }

/-- A raw age-distribution frame whose national-total block (`合計` in column
position 1) contains a male row, plus a non-total row tagged `計`. -/
def dfAgeRaw : DF :=
  { cols := ["code", "name", "sex", "x", "b0"],
    rows := [[Val.vstr "00", Val.vstr "合計", Val.vstr "男", Val.vstr "x", Val.vstr "1,0"],
             [Val.vstr "00", Val.vstr "全国", Val.vstr "計", Val.vstr "x", Val.vstr "2"]] }

/-- `clean_age_data`'s reduction of `dfAgeRaw`: only the `合計`-named male row
survives, with positions `3:` coerced. -/
def dfAgeOut : DF :=
  { cols := ["code", "name", "sex", "x", "b0"],
    rows := [[Val.vstr "00", Val.vstr "合計", Val.vstr "男", Val.na, Val.vnum 10]] }

/-- A reduced seven-column age frame with a `計` total row: brackets 10, 20,
missing. -/
def dfAgeTS : DF :=
  { cols := ["c0","c1","c2","c3","c4","c5","c6"],
    rows := [[Val.vstr "00", Val.vstr "合計", Val.vstr "計", Val.vnum 99,
              Val.vnum 10, Val.vnum 20, Val.na]] }

/-- A 24-column raw frame whose rate field holds the unparseable `N/A`. -/
def dfRankRaw : DF :=
  { cols := dfRaw24.cols,
    rows := [[Val.vstr "01", Val.vstr "東京都", Val.vstr "7,000,000", Val.vstr "7,200,000",
              Val.vstr "14,200,000", Val.vstr "6000", Val.vstr "1", Val.vstr "2",
              Val.vstr "3", Val.vstr "4", Val.vstr "5", Val.vstr "6", Val.vstr "7",
              Val.vstr "8", Val.vstr "9", Val.vstr "10", Val.vstr "11", Val.vstr "12",
              Val.vstr "13", Val.vstr "N/A", Val.vstr "14", Val.vstr "15",
              Val.vstr "16", Val.vstr "17"]] }

/-- The cleaned form of `dfRankRaw`: its ranking cell `人口増減率` is missing. -/
def dfRankClean : DF :=
  { cols := canonical_columns,
    rows := [[Val.vstr "01", Val.vstr "東京都", Val.vnum 7000000, Val.vnum 7200000,
              Val.vnum 14200000, Val.vnum 6000, Val.vstr "1", Val.vstr "2", Val.vstr "3",
              Val.vnum 4, Val.vstr "5", Val.vstr "6", Val.vstr "7", Val.vstr "8",
              Val.vstr "9", Val.vnum 10, Val.vstr "11", Val.vstr "12", Val.vnum 13,
              Val.na, Val.vnum 14, Val.vnum 15, Val.vnum 16, Val.vnum 17]] }

/-- A two-column frame with three rows and pairwise-distinct ranking values. -/
def dfRank3 : DF :=
  { cols := ["名前", "値"],
    rows := [[Val.vstr "a", Val.vnum 5], [Val.vstr "b", Val.vnum 9], [Val.vstr "c", Val.vnum 1]] }

/-- `dfRank3.nlargest(1, 値)`. -/
def dfRank3Top : DF := { cols := ["名前", "値"], rows := [[Val.vstr "b", Val.vnum 9]] }

/-- `dfRank3.nsmallest(1, 値)`. -/
def dfRank3Bot : DF := { cols := ["名前", "値"], rows := [[Val.vstr "c", Val.vnum 1]] }

/-- A two-column frame with three rows that all share the same ranking
value. -/
def dfTie : DF :=
  { cols := ["名前", "値"],
    rows := [[Val.vstr "a", Val.vnum 5], [Val.vstr "b", Val.vnum 5],
             [Val.vstr "c", Val.vnum 5]] }

/-- A read environment in which only the 2023 age file is missing. -/
def ageReadMissing2023 : Nat → Option DF :=
  fun y => if y = 2022 then some dfAgeTS else if y = 2024 then some dfAgeRaw else none

/-! Helper lemmas. -/

lemma canonical_columns_length : canonical_columns.length = 24 := rfl

lemma findIdx?_none_of_not_mem {c : String} {l : List String} (h : c ∉ l) :
    List.findIdx? (fun x => x == c) l = none := by
  rw [List.findIdx?_eq_none_iff]
  intro x hx
  rw [beq_eq_false_iff_ne]
  exact fun heq => h (heq ▸ hx)

lemma rename_step_of_eq {df : DF} (h : df.cols.length = 24) :
    rename_step df = .ok { cols := canonical_columns, rows := df.rows } := by
  have htake : canonical_columns.take df.cols.length = canonical_columns := by
    apply List.take_of_length_le
    rw [canonical_columns_length, h]
  rw [rename_step, if_pos (by rw [canonical_columns_length, h]), htake, set_axis,
    if_pos (by rw [canonical_columns_length, h])]

lemma rename_step_of_gt {df : DF} (h : 24 < df.cols.length) :
    rename_step df = .error (.lengthMismatch 24 df.cols.length) := by
  have hlen : (canonical_columns.take df.cols.length).length = 24 := by
    rw [List.length_take, canonical_columns_length]
    omega
  rw [rename_step, if_pos (by rw [canonical_columns_length]; omega), set_axis,
    if_neg (by rw [hlen]; omega), hlen]

lemma rename_step_of_lt {df : DF} (h : df.cols.length < 24) :
    rename_step df = .ok df := by
  rw [rename_step, if_neg (by rw [canonical_columns_length]; omega)]

lemma clean_population_data_of_rename_error {df : DF} {e : CleanError}
    (h : rename_step df = .error e) : clean_population_data df = .error e := by
  unfold clean_population_data
  rw [h]
  rfl

lemma coerce_one_cols (df : DF) (c : String) : (coerce_one df c).cols = df.cols := by
  unfold coerce_one
  cases colIdx df c <;> rfl

lemma colIdx_coerce_one (df : DF) (c x : String) :
    colIdx (coerce_one df c) x = colIdx df x := by
  unfold colIdx
  rw [coerce_one_cols]

lemma coerce_fold_cols (names : List String) (df : DF) :
    (coerce_fold names df).cols = df.cols := by
  induction names generalizing df with
  | nil => rfl
  | cons c cs ih => exact (ih (coerce_one df c)).trans (coerce_one_cols df c)

lemma coerce_fold_cons (c : String) (cs : List String) (df : DF) :
    coerce_fold (c :: cs) df = coerce_fold cs (coerce_one df c) := rfl

lemma findIdx?_getD {p : String → Bool} {l : List String} {i : Nat}
    (h : List.findIdx? p l = some i) : p (l.getD i "") = true ∧ i < l.length := by
  rw [List.findIdx?_eq_some_iff_findIdx_eq] at h
  obtain ⟨hlt, hidx⟩ := h
  subst hidx
  exact ⟨by rw [List.getD_eq_getElem l _ hlt]; exact List.findIdx_getElem, hlt⟩

lemma colIdx_ne_of_ne {df : DF} {c c' : String} {i j : Nat}
    (hc : colIdx df c = some i) (hc' : colIdx df c' = some j) (hne : c ≠ c') :
    i ≠ j := by
  intro heq
  subst heq
  have h1 := (findIdx?_getD hc).1
  have h2 := (findIdx?_getD hc').1
  rw [beq_iff_eq] at h1 h2
  exact hne (h1.symm.trans h2)

lemma getD_set_ne (r : List Val) {j i : Nat} (v : Val) (h : j ≠ i) :
    (r.set j v).getD i .na = r.getD i .na := by
  rw [List.getD_eq_getElem?_getD, List.getD_eq_getElem?_getD, List.getElem?_set_ne h]

lemma getD_set_self (r : List Val) (j : Nat) (v : Val) :
    (r.set j v).getD j .na = if j < r.length then v else .na := by
  rw [List.getD_eq_getElem?_getD, List.getElem?_set, if_pos rfl]
  by_cases hl : j < r.length <;> simp [hl]

lemma coerce_fold_rows_map (names : List String) (df : DF) (i : Nat)
    (hcol : colIdx df "都道府県名" = some i)
    (hnames : ∀ c ∈ names, c ≠ "都道府県名") :
    ∃ f : List Val → List Val,
      (coerce_fold names df).rows = df.rows.map f ∧
      ∀ r, (f r).getD i .na = r.getD i .na := by
  induction names generalizing df with
  | nil => exact ⟨id, by simp [coerce_fold], fun _ => rfl⟩
  | cons c cs ih =>
    have hcol' : colIdx (coerce_one df c) "都道府県名" = some i := by
      rw [colIdx_coerce_one]; exact hcol
    obtain ⟨f, hmap, hpres⟩ :=
      ih (coerce_one df c) hcol' (fun c' hc' => hnames c' (List.mem_cons_of_mem c hc'))
    rw [coerce_fold_cons]
    cases hc : colIdx df c with
    | none =>
      refine ⟨f, ?_, hpres⟩
      rw [hmap]
      unfold coerce_one
      rw [hc]
    | some j =>
      have hji : j ≠ i :=
        colIdx_ne_of_ne hc hcol (hnames c (List.mem_cons_self c cs))
      refine ⟨fun r => f (r.set j (coerceNumeric (r.getD j .na))), ?_, ?_⟩
      · rw [hmap]
        unfold coerce_one
        rw [hc]
        show (coerceColumn j df.rows).map f = _
        unfold coerceColumn
        rw [List.map_map]
        rfl
      · intro r
        rw [hpres, getD_set_ne _ _ hji]

lemma coerceNumeric_isNumOrNa (v : Val) : (coerceNumeric v).isNumOrNa = true := by
  cases v with
  | vstr s =>
    show (match parseIntStr (stripSeparators s) with
          | some n => Val.vnum n
          | none => Val.na).isNumOrNa = true
    cases parseIntStr (stripSeparators s) <;> rfl
  | vnum n => rfl
  | na => rfl

lemma coerceColumn_shape (j : Nat) (rows : List (List Val)) :
    ∀ r ∈ coerceColumn j rows, (r.getD j .na).isNumOrNa = true := by
  intro r hr
  obtain ⟨r0, _, rfl⟩ := List.mem_map.mp hr
  rw [getD_set_self]
  by_cases hl : j < r0.length
  · rw [if_pos hl]; exact coerceNumeric_isNumOrNa _
  · rw [if_neg hl]; rfl

lemma coerce_one_preserves_shape (df : DF) (c : String) (j : Nat)
    (h : ∀ r ∈ df.rows, (r.getD j .na).isNumOrNa = true) :
    ∀ r ∈ (coerce_one df c).rows, (r.getD j .na).isNumOrNa = true := by
  unfold coerce_one
  cases hc : colIdx df c with
  | none => exact h
  | some j' =>
    intro r hr
    obtain ⟨r0, hr0, rfl⟩ := List.mem_map.mp hr
    by_cases hjj : j' = j
    · subst hjj
      rw [getD_set_self]
      by_cases hl : j' < r0.length
      · rw [if_pos hl]; exact coerceNumeric_isNumOrNa _
      · rw [if_neg hl]; rfl
    · rw [getD_set_ne _ _ hjj]
      exact h r0 hr0

lemma coerce_fold_preserves_shape (names : List String) (df : DF) (j : Nat)
    (h : ∀ r ∈ df.rows, (r.getD j .na).isNumOrNa = true) :
    ∀ r ∈ (coerce_fold names df).rows, (r.getD j .na).isNumOrNa = true := by
  induction names generalizing df with
  | nil => exact h
  | cons c cs ih =>
    rw [coerce_fold_cons]
    exact ih (coerce_one df c) (coerce_one_preserves_shape df c j h)

lemma coerce_fold_shape_of_mem (names : List String) (df : DF) (c : String) (j : Nat)
    (hc : c ∈ names) (hj : colIdx df c = some j) :
    ∀ r ∈ (coerce_fold names df).rows, (r.getD j .na).isNumOrNa = true := by
  induction names generalizing df with
  | nil => cases hc
  | cons c' cs ih =>
    rw [coerce_fold_cons]
    by_cases hcc : c' = c
    · subst hcc
      apply coerce_fold_preserves_shape
      unfold coerce_one
      rw [hj]
      exact coerceColumn_shape j df.rows
    · rcases List.mem_cons.mp hc with heq | hmem
      · exact absurd heq.symm hcc
      · exact ih (coerce_one df c') hmem (by rw [colIdx_coerce_one]; exact hj)

lemma coerce_step_cols (df : DF) : (coerce_step df).cols = df.cols :=
  coerce_fold_cols _ _

lemma coerce_from_getD_lt (ncols : Nat) (r : List Val) (k m : Nat) (h : k + m < 3) :
    (coerce_from k ncols r).getD m .na = r.getD m .na := by
  induction r generalizing k m with
  | nil => rfl
  | cons v t ih =>
    cases m with
    | zero =>
      show ((if 3 ≤ k ∧ k < ncols then coerceNumeric v else v) :: coerce_from (k + 1) ncols t).getD
          0 Val.na = (v :: t).getD 0 Val.na
      rw [List.getD_cons_zero, List.getD_cons_zero, if_neg]
      intro hk
      omega
    | succ m' =>
      show ((if 3 ≤ k ∧ k < ncols then coerceNumeric v else v) :: coerce_from (k + 1) ncols t).getD
          (m' + 1) Val.na = (v :: t).getD (m' + 1) Val.na
      rw [List.getD_cons_succ, List.getD_cons_succ]
      exact ih (k + 1) m' (by omega)

lemma clean_population_data_ok_decomp {df out : DF}
    (h : clean_population_data df = .ok out) :
    ∃ df1 i, rename_step df = .ok df1 ∧ colIdx df1 "都道府県名" = some i ∧
      out = coerce_step
        { cols := df1.cols,
          rows := df1.rows.filter (fun r => r.getD i Val.na != Val.vstr "合計") } := by
  unfold clean_population_data at h
  cases hr : rename_step df with
  | error e =>
    rw [hr] at h
    change Except.error e = Except.ok out at h
    exact Except.noConfusion h
  | ok df1 =>
    rw [hr] at h
    change (do
      let df2 ← drop_total_step df1
      pure (coerce_step df2)) = Except.ok out at h
    cases hd : drop_total_step df1 with
    | error e =>
      rw [hd] at h
      change Except.error e = Except.ok out at h
      exact Except.noConfusion h
    | ok df2 =>
      rw [hd] at h
      change Except.ok (coerce_step df2) = Except.ok out at h
      unfold drop_total_step at hd
      cases hc : colIdx df1 "都道府県名" with
      | none =>
        rw [hc] at hd
        exact Except.noConfusion hd
      | some i =>
        rw [hc] at hd
        refine ⟨df1, i, rfl, hc, ?_⟩
        have hout : coerce_step df2 = out := (Except.ok.injEq _ _).mp h
        have hdf2 := (Except.ok.injEq _ _).mp hd
        rw [← hout, hdf2]

lemma cohort_foldl_eq (ncols : Nat) (row : List Val) (idxs : List Nat) (acc : Int)
    (h : ∀ i ∈ idxs, i + 4 < ncols → (row.getD (i + 4) Val.na).isNumOrNa = true) :
    idxs.foldl
      (fun a i => if i + 4 < ncols then addVal a (row.getD (i + 4) Val.na) else a)
      (some acc) = some (acc + cohort_total_spec ncols row idxs) := by
  induction idxs generalizing acc with
  | nil => simp [cohort_total_spec]
  | cons i t ih =>
    rw [List.foldl_cons]
    have ht : ∀ j ∈ t, j + 4 < ncols → (row.getD (j + 4) Val.na).isNumOrNa = true :=
      fun j hj => h j (List.mem_cons_of_mem i hj)
    by_cases hin : i + 4 < ncols
    · rw [if_pos hin]
      have hsh := h i (List.mem_cons_self i t) hin
      cases hv : row.getD (i + 4) Val.na with
      | vstr s =>
        rw [hv] at hsh
        simp [Val.isNumOrNa] at hsh
      | vnum n =>
        show t.foldl _ (some (acc + n)) = _
        rw [ih (acc + n) ht]
        have : cohort_total_spec ncols row (i :: t) =
            n + cohort_total_spec ncols row t := by
          unfold cohort_total_spec
          rw [List.map_cons, List.sum_cons]
          unfold bracket_value
          rw [if_pos hin, hv]
          rfl
        rw [this]
        ring_nf
      | na =>
        show t.foldl _ (some acc) = _
        rw [ih acc ht]
        have : cohort_total_spec ncols row (i :: t) = cohort_total_spec ncols row t := by
          unfold cohort_total_spec
          rw [List.map_cons, List.sum_cons]
          unfold bracket_value
          rw [if_pos hin, hv]
          show (0 : Int) + _ = _
          ring
        rw [this]
    · rw [if_neg hin]
      rw [ih acc ht]
      have : cohort_total_spec ncols row (i :: t) = cohort_total_spec ncols row t := by
        unfold cohort_total_spec
        rw [List.map_cons, List.sum_cons]
        unfold bracket_value
        rw [if_neg hin]
        show (0 : Int) + _ = _
        ring
      rw [this]

lemma cohort_total_eq_spec (ncols : Nat) (row : List Val) (idxs : List Nat)
    (h : ∀ i ∈ idxs, i + 4 < ncols → (row.getD (i + 4) Val.na).isNumOrNa = true) :
    cohort_total ncols row idxs = some (cohort_total_spec ncols row idxs) := by
  have heq := cohort_foldl_eq ncols row idxs 0 h
  unfold cohort_total
  rw [heq]
  ring_nf

lemma cohort_total_spec_filter (ncols : Nat) (row : List Val) (idxs : List Nat) :
    cohort_total_spec ncols row idxs =
      ((idxs.filter (fun i => decide (i + 4 < ncols))).map
        (fun i => (row.getD (i + 4) Val.na).toInt)).sum := by
  induction idxs with
  | nil => rfl
  | cons i t ih =>
    unfold cohort_total_spec at ih ⊢
    rw [List.map_cons, List.sum_cons, List.filter_cons]
    by_cases hin : i + 4 < ncols
    · rw [if_pos (by simpa using hin), List.map_cons, List.sum_cons, ← ih]
      unfold bracket_value
      rw [if_pos hin]
    · rw [if_neg (by simpa using hin), ← ih]
      unfold bracket_value
      rw [if_neg hin]
      exact zero_add _

lemma time_series_rows_spec_length (ageData : List (Nat × DF)) :
    (time_series_rows_spec ageData).length =
      (ageData.filter (fun yd => !(year_total_row yd.2).isEmpty)).length := by
  induction ageData with
  | nil => rfl
  | cons yd rest ih =>
    unfold time_series_rows_spec at ih ⊢
    rw [List.filterMap_cons, List.filter_cons]
    cases hyr : year_total_row yd.2 with
    | nil => simpa [hyr] using ih
    | cons a l => simpa [hyr] using ih

section Sorting

variable {α : Type}

lemma insert_desc_length (a : Int × α) (s : List (Int × α)) :
    (insert_desc a s).length = s.length + 1 := by
  induction s with
  | nil => rfl
  | cons b t ih =>
    unfold insert_desc
    by_cases hab : a.1 < b.1
    · rw [if_pos hab, List.length_cons, ih, List.length_cons]
    · rw [if_neg hab, List.length_cons, List.length_cons]

lemma sort_desc_length (l : List (Int × α)) : (sort_desc l).length = l.length := by
  induction l with
  | nil => rfl
  | cons a t ih =>
    show (insert_desc a (sort_desc t)).length = t.length + 1
    rw [insert_desc_length, ih]

lemma insert_desc_perm (a : Int × α) (s : List (Int × α)) :
    (insert_desc a s).Perm (a :: s) := by
  induction s with
  | nil => exact List.Perm.refl _
  | cons b t ih =>
    unfold insert_desc
    by_cases hab : a.1 < b.1
    · rw [if_pos hab]
      exact (ih.cons b).trans (List.Perm.swap a b t)
    · rw [if_neg hab]

lemma sort_desc_perm (l : List (Int × α)) : (sort_desc l).Perm l := by
  induction l with
  | nil => exact List.Perm.refl _
  | cons a t ih =>
    show (insert_desc a (sort_desc t)).Perm (a :: t)
    exact (insert_desc_perm a (sort_desc t)).trans (ih.cons a)

lemma insert_desc_sorted (a : Int × α) (s : List (Int × α))
    (hs : s.Pairwise (fun x y => y.1 ≤ x.1)) :
    (insert_desc a s).Pairwise (fun x y => y.1 ≤ x.1) := by
  induction s with
  | nil => simp [insert_desc]
  | cons b t ih =>
    obtain ⟨hb, ht⟩ := List.pairwise_cons.mp hs
    unfold insert_desc
    by_cases hab : a.1 < b.1
    · rw [if_pos hab, List.pairwise_cons]
      refine ⟨?_, ih ht⟩
      intro x hx
      rcases List.mem_cons.mp ((insert_desc_perm a t).mem_iff.mp hx) with rfl | hxt
      · exact le_of_lt hab
      · exact hb x hxt
    · rw [if_neg hab, List.pairwise_cons]
      refine ⟨?_, hs⟩
      intro x hx
      rcases List.mem_cons.mp hx with rfl | hxt
      · exact not_lt.mp hab
      · exact le_trans (hb x hxt) (not_lt.mp hab)

lemma sort_desc_sorted (l : List (Int × α)) :
    (sort_desc l).Pairwise (fun x y => y.1 ≤ x.1) := by
  induction l with
  | nil => exact List.Pairwise.nil
  | cons a t ih => exact insert_desc_sorted a (sort_desc t) ih

lemma insert_desc_pairwise_lex (R : α → α → Prop) (a : Int × α) (s : List (Int × α))
    (ha : ∀ b ∈ s, R a.2 b.2)
    (hs : s.Pairwise (fun x y => y.1 < x.1 ∨ (x.1 = y.1 ∧ R x.2 y.2))) :
    (insert_desc a s).Pairwise (fun x y => y.1 < x.1 ∨ (x.1 = y.1 ∧ R x.2 y.2)) := by
  induction s with
  | nil => simp [insert_desc]
  | cons b t ih =>
    obtain ⟨hb, ht⟩ := List.pairwise_cons.mp hs
    have hat : ∀ x ∈ t, R a.2 x.2 := fun x hx => ha x (List.mem_cons_of_mem _ hx)
    unfold insert_desc
    by_cases hab : a.1 < b.1
    · rw [if_pos hab, List.pairwise_cons]
      refine ⟨?_, ih hat ht⟩
      intro x hx
      rcases List.mem_cons.mp ((insert_desc_perm a t).mem_iff.mp hx) with rfl | hxt
      · exact Or.inl hab
      · exact hb x hxt
    · rw [if_neg hab, List.pairwise_cons]
      have hba : b.1 ≤ a.1 := not_lt.mp hab
      refine ⟨?_, hs⟩
      intro x hx
      rcases List.mem_cons.mp hx with rfl | hxt
      · rcases lt_or_eq_of_le hba with hlt | heqq
        · exact Or.inl hlt
        · exact Or.inr ⟨heqq.symm, ha x (List.mem_cons_self _ _)⟩
      · rcases hb x hxt with hlt | ⟨heq, _⟩
        · exact Or.inl (lt_of_lt_of_le hlt hba)
        · rcases lt_or_eq_of_le hba with hlt2 | heqq
          · exact Or.inl (heq ▸ hlt2)
          · exact Or.inr ⟨heqq.symm.trans heq, hat x hxt⟩

lemma sort_desc_pairwise_lex (R : α → α → Prop) (l : List (Int × α))
    (hl : l.Pairwise (fun x y => R x.2 y.2)) :
    (sort_desc l).Pairwise (fun x y => y.1 < x.1 ∨ (x.1 = y.1 ∧ R x.2 y.2)) := by
  induction l with
  | nil => exact List.Pairwise.nil
  | cons a t ih =>
    obtain ⟨haR, htR⟩ := List.pairwise_cons.mp hl
    show (insert_desc a (sort_desc t)).Pairwise _
    apply insert_desc_pairwise_lex R
    · intro b hb
      exact haR b ((sort_desc_perm t).mem_iff.mp hb)
    · exact ih htR

lemma insert_asc_perm (a : Int × α) (s : List (Int × α)) :
    (insert_asc a s).Perm (a :: s) := by
  induction s with
  | nil => exact List.Perm.refl _
  | cons b t ih =>
    unfold insert_asc
    by_cases hab : b.1 < a.1
    · rw [if_pos hab]
      exact (ih.cons b).trans (List.Perm.swap a b t)
    · rw [if_neg hab]

lemma sort_asc_perm (l : List (Int × α)) : (sort_asc l).Perm l := by
  induction l with
  | nil => exact List.Perm.refl _
  | cons a t ih =>
    show (insert_asc a (sort_asc t)).Perm (a :: t)
    exact (insert_asc_perm a (sort_asc t)).trans (ih.cons a)

lemma insert_asc_sorted (a : Int × α) (s : List (Int × α))
    (hs : s.Pairwise (fun x y => x.1 ≤ y.1)) :
    (insert_asc a s).Pairwise (fun x y => x.1 ≤ y.1) := by
  induction s with
  | nil => simp [insert_asc]
  | cons b t ih =>
    obtain ⟨hb, ht⟩ := List.pairwise_cons.mp hs
    unfold insert_asc
    by_cases hab : b.1 < a.1
    · rw [if_pos hab, List.pairwise_cons]
      refine ⟨?_, ih ht⟩
      intro x hx
      rcases List.mem_cons.mp ((insert_asc_perm a t).mem_iff.mp hx) with rfl | hxt
      · exact le_of_lt hab
      · exact hb x hxt
    · rw [if_neg hab, List.pairwise_cons]
      refine ⟨?_, hs⟩
      intro x hx
      rcases List.mem_cons.mp hx with rfl | hxt
      · exact not_lt.mp hab
      · exact le_trans (not_lt.mp hab) (hb x hxt)

lemma sort_asc_sorted (l : List (Int × α)) :
    (sort_asc l).Pairwise (fun x y => x.1 ≤ y.1) := by
  induction l with
  | nil => exact List.Pairwise.nil
  | cons a t ih => exact insert_asc_sorted a (sort_asc t) ih

lemma count_gt_of_mem_take {s : List (Int × α)} {n : Nat} {x : Int × α}
    (hs : s.Pairwise (fun p q => q.1 ≤ p.1)) (hx : x ∈ s.take n) :
    List.countP (fun z => decide (x.1 < z.1)) s < n := by
  induction s generalizing n with
  | nil => simp at hx
  | cons b t ih =>
    cases n with
    | zero => simp at hx
    | succ m =>
      obtain ⟨hb, ht⟩ := List.pairwise_cons.mp hs
      rw [List.take_succ_cons] at hx
      rw [List.countP_cons]
      rcases List.mem_cons.mp hx with rfl | hxt
      · have h0 : List.countP (fun z => decide (x.1 < z.1)) t = 0 := by
          rw [List.countP_eq_zero]
          intro z hz
          have := hb z hz
          simp only [decide_eq_true_eq]
          omega
        rw [h0]
        simp only [decide_eq_true_eq]
        rw [if_neg (by omega)]
        omega
      · have hlt := ih ht hxt
        have : (if decide (x.1 < b.1) = true then 1 else 0) ≤ 1 := by
          split <;> omega
        omega

lemma count_lt_of_mem_take {s : List (Int × α)} {n : Nat} {x : Int × α}
    (hs : s.Pairwise (fun p q => p.1 ≤ q.1)) (hx : x ∈ s.take n) :
    List.countP (fun z => decide (z.1 < x.1)) s < n := by
  induction s generalizing n with
  | nil => simp at hx
  | cons b t ih =>
    cases n with
    | zero => simp at hx
    | succ m =>
      obtain ⟨hb, ht⟩ := List.pairwise_cons.mp hs
      rw [List.take_succ_cons] at hx
      rw [List.countP_cons]
      rcases List.mem_cons.mp hx with rfl | hxt
      · have h0 : List.countP (fun z => decide (z.1 < x.1)) t = 0 := by
          rw [List.countP_eq_zero]
          intro z hz
          have := hb z hz
          simp only [decide_eq_true_eq]
          omega
        rw [h0]
        simp only [decide_eq_true_eq]
        rw [if_neg (by omega)]
        omega
      · have hlt := ih ht hxt
        have : (if decide (b.1 < x.1) = true then 1 else 0) ≤ 1 := by
          split <;> omega
        omega

end Sorting

lemma countP_le_countP_add_countP {β : Type} {p q r : β → Bool} (l : List β)
    (h : ∀ a ∈ l, p a = true → q a = true ∨ r a = true) :
    List.countP p l ≤ List.countP q l + List.countP r l := by
  induction l with
  | nil => simp
  | cons a t ih =>
    rw [List.countP_cons, List.countP_cons, List.countP_cons]
    have ht := ih (fun a' ha' => h a' (List.mem_cons_of_mem _ ha'))
    by_cases hp : p a = true
    · rcases h a (List.mem_cons_self _ _) hp with hq | hr
      · rw [if_pos hp, if_pos hq]
        have : (if r a = true then 1 else 0) ≤ 1 := by split <;> omega
        omega
      · rw [if_pos hp, if_pos hr]
        have : (if q a = true then 1 else 0) ≤ 1 := by split <;> omega
        omega
    · rw [if_neg hp]
      have h1 : (if q a = true then 1 else 0) ≤ 1 := by split <;> omega
      have h2 : (if r a = true then 1 else 0) ≤ 1 := by split <;> omega
      omega

lemma isVnum_exists {v : Val} (h : v.isVnum = true) : ∃ m : Int, v = Val.vnum m := by
  cases v with
  | vnum m => exact ⟨m, rfl⟩
  | vstr s => simp [Val.isVnum] at h
  | na => simp [Val.isVnum] at h

lemma keyed_from_mem {i k : Nat} {rows : List (List Val)} {q : Int × Nat × List Val}
    (h : q ∈ keyed_from i k rows) :
    q.2.2 ∈ rows ∧ q.2.2.getD i Val.na = Val.vnum q.1 ∧ k ≤ q.2.1 := by
  induction rows generalizing k with
  | nil => cases h
  | cons r t ih =>
    unfold keyed_from at h
    cases hv : r.getD i Val.na with
    | vnum v =>
      rw [hv] at h
      rcases List.mem_cons.mp h with rfl | hq
      · exact ⟨List.mem_cons_self _ _, hv, le_refl k⟩
      · obtain ⟨h1, h2, h3⟩ := ih hq
        exact ⟨List.mem_cons_of_mem _ h1, h2, by omega⟩
    | vstr s =>
      rw [hv] at h
      obtain ⟨h1, h2, h3⟩ := ih h
      exact ⟨List.mem_cons_of_mem _ h1, h2, by omega⟩
    | na =>
      rw [hv] at h
      obtain ⟨h1, h2, h3⟩ := ih h
      exact ⟨List.mem_cons_of_mem _ h1, h2, by omega⟩

lemma keyed_from_map_fst {i : Nat} (k : Nat) (rows : List (List Val))
    (h : ∀ r ∈ rows, (r.getD i Val.na).isVnum = true) :
    (keyed_from i k rows).map (fun q => q.1) =
      rows.map (fun r => (r.getD i Val.na).toInt) := by
  induction rows generalizing k with
  | nil => rfl
  | cons r t ih =>
    have hr := h r (List.mem_cons_self _ _)
    have ht := fun r' h' => h r' (List.mem_cons_of_mem _ h')
    cases hv : r.getD i Val.na with
    | vnum v =>
      unfold keyed_from
      rw [hv]
      show v :: (keyed_from i (k + 1) t).map (fun q => q.1) = _
      rw [List.map_cons, ih (k + 1) ht, hv]
      rfl
    | vstr s =>
      rw [hv] at hr
      simp [Val.isVnum] at hr
    | na =>
      rw [hv] at hr
      simp [Val.isVnum] at hr

lemma keyed_from_length {i : Nat} (k : Nat) (rows : List (List Val))
    (h : ∀ r ∈ rows, (r.getD i Val.na).isVnum = true) :
    (keyed_from i k rows).length = rows.length := by
  have hlen := congrArg List.length (keyed_from_map_fst k rows h)
  rw [List.length_map, List.length_map] at hlen
  exact hlen

lemma keyed_from_pairwise_idx {i : Nat} (k : Nat) (rows : List (List Val)) :
    (keyed_from i k rows).Pairwise (fun x y => x.2.1 < y.2.1) := by
  induction rows generalizing k with
  | nil => exact List.Pairwise.nil
  | cons r t ih =>
    unfold keyed_from
    cases hv : r.getD i Val.na with
    | vnum v =>
      refine List.Pairwise.cons ?_ (ih (k + 1))
      intro q hq
      have := (keyed_from_mem hq).2.2
      show k < q.2.1
      omega
    | vstr s => exact ih (k + 1)
    | na => exact ih (k + 1)

lemma sel_desc_mem_count {n i : Nat} {rows : List (List Val)} {x : Int × Nat × List Val}
    (hx : x ∈ sel_desc n i rows) :
    x ∈ keyed i rows ∧
    List.countP (fun z => decide (x.1 < z.1)) (keyed i rows) < n := by
  have h1 : x ∈ sort_desc (keyed i rows) := List.mem_of_mem_take hx
  refine ⟨(sort_desc_perm _).mem_iff.mp h1, ?_⟩
  have hc := count_gt_of_mem_take (sort_desc_sorted (keyed i rows)) hx
  rw [(sort_desc_perm (keyed i rows)).countP_eq] at hc
  exact hc

lemma sel_asc_mem_count {n i : Nat} {rows : List (List Val)} {x : Int × Nat × List Val}
    (hx : x ∈ sel_asc n i rows) :
    x ∈ keyed i rows ∧
    List.countP (fun z => decide (z.1 < x.1)) (keyed i rows) < n := by
  have h1 : x ∈ sort_asc (keyed i rows) := List.mem_of_mem_take hx
  refine ⟨(sort_asc_perm _).mem_iff.mp h1, ?_⟩
  have hc := count_lt_of_mem_take (sort_asc_sorted (keyed i rows)) hx
  rw [(sort_asc_perm (keyed i rows)).countP_eq] at hc
  exact hc

lemma lookup_filterMap_none (ys : List Nat) (f : Nat → Option DF) (y : Nat)
    (hy : f y = none) :
    (ys.filterMap (fun z => (f z).map (fun d => (z, d)))).lookup y = none := by
  induction ys with
  | nil => rfl
  | cons z zs ih =>
    rw [List.filterMap_cons]
    cases hz : f z with
    | none => exact ih
    | some d =>
      show List.lookup y ((z, d) :: zs.filterMap (fun z' => (f z').map (fun d' => (z', d')))) =
        none
      rw [List.lookup_cons]
      have hne : y ≠ z := by
        intro h
        rw [h, hz] at hy
        cases hy
      rw [beq_eq_false_iff_ne.mpr hne]
      exact ih

lemma lookup_filterMap_ageRead (ys : List Nat) (f : Nat → Option DF) (y : Nat)
    (hy : y ∈ ys) :
    (ys.filterMap (fun z => (f z).map (fun d => (z, d)))).lookup y = f y := by
  induction ys with
  | nil => cases hy
  | cons z zs ih =>
    rw [List.filterMap_cons]
    cases hz : f z with
    | none =>
      by_cases hyz : y = z
      · subst hyz
        rw [hz]
        exact lookup_filterMap_none zs f y hz
      · rcases List.mem_cons.mp hy with heq | hmem
        · exact absurd heq hyz
        · exact ih hmem
    | some d =>
      show List.lookup y ((z, d) :: zs.filterMap (fun z' => (f z').map (fun d' => (z', d')))) =
        f y
      rw [List.lookup_cons]
      by_cases hyz : y = z
      · subst hyz
        rw [beq_self_eq_true, hz]
      · rw [beq_eq_false_iff_ne.mpr hyz]
        rcases List.mem_cons.mp hy with heq | hmem
        · exact absurd heq hyz
        · exact ih hmem

/-! Claim theorems. -/

/-- C1 counterexample: the claim asserts that a raw table with more than 24
columns is cleaned successfully with the extra columns dropped silently, and
that a narrower table receives the corresponding prefix of canonical names.
On a 25-column table the cleaning instead fails with a length-mismatch error,
and on a 23-column table no canonical name is assigned at all. -/
theorem clean_population_extra_columns_fail :
    clean_population_data dfRaw25 = .error (.lengthMismatch 24 25) ∧
    rename_step dfRaw23 = .ok dfRaw23 ∧
    dfRaw23.cols ≠ canonical_columns.take 23 := by
  exact ⟨rfl, rfl, by decide⟩

/-- C1 (amended): `clean_population_data` renames columns only when the raw
table has at least 24 columns.  With exactly 24 columns all 24 canonical names
are assigned; with more than 24 columns the assignment of the 24 canonical
names fails with a length-mismatch error that aborts the cleaning; with fewer
than 24 columns the raw column names are left unchanged. -/
theorem clean_population_rename_truncation (df : DF) :
    (df.cols.length = 24 →
      rename_step df = .ok { cols := canonical_columns, rows := df.rows }) ∧
    (24 < df.cols.length →
      clean_population_data df = .error (.lengthMismatch 24 df.cols.length)) ∧
    (df.cols.length < 24 → rename_step df = .ok df) :=
  ⟨fun h => rename_step_of_eq h,
   fun h => clean_population_data_of_rename_error (rename_step_of_gt h),
   fun h => rename_step_of_lt h⟩

/-- Witness for C1: the three regimes at 24-, 25- and 23-column frames. -/
theorem clean_population_rename_truncation_witness :
    rename_step dfRaw24 = .ok { cols := canonical_columns, rows := dfRaw24.rows } ∧
    clean_population_data dfRaw25 = .error (.lengthMismatch 24 dfRaw25.cols.length) ∧
    rename_step dfRaw23 = .ok dfRaw23 :=
  ⟨(clean_population_rename_truncation dfRaw24).1 rfl,
   (clean_population_rename_truncation dfRaw25).2.1 (by decide),
   (clean_population_rename_truncation dfRaw23).2.2 (by decide)⟩

/-- C3: a successfully cleaned population table contains no row whose
prefecture-name cell is the `合計` sentinel, and the output rows correspond
one-to-one, in order and with the prefecture-name cell unchanged, to exactly
the non-sentinel rows of the renamed input. -/
theorem clean_population_total_row_excluded (df out : DF) (i : Nat)
    (h : clean_population_data df = .ok out)
    (hi : colIdx out "都道府県名" = some i) :
    (∀ r ∈ out.rows, r.getD i Val.na ≠ Val.vstr "合計") ∧
    ∃ df1, rename_step df = .ok df1 ∧
      List.Forall₂ (fun r' r => r'.getD i Val.na = r.getD i Val.na)
        out.rows (df1.rows.filter (fun r => r.getD i Val.na != Val.vstr "合計")) := by
  obtain ⟨df1, i0, hrn, hcp, hout⟩ := clean_population_data_ok_decomp h
  have hcols : out.cols = df1.cols := by
    rw [hout]
    exact coerce_fold_cols _ _
  have hi1 : colIdx df1 "都道府県名" = some i := by
    have heq : colIdx out "都道府県名" = colIdx df1 "都道府県名" := by
      unfold colIdx
      rw [hcols]
    rw [heq] at hi
    exact hi
  have hii : i0 = i := Option.some.inj (hcp.symm.trans hi1)
  subst hii
  have hc2 : colIdx
      { cols := df1.cols,
        rows := df1.rows.filter (fun r => r.getD i0 Val.na != Val.vstr "合計") }
      "都道府県名" = some i0 := hi1
  obtain ⟨f, hmap, hpres⟩ :=
    coerce_fold_rows_map numeric_cols _ i0 hc2 (by decide)
  have hrows : out.rows =
      (df1.rows.filter (fun r => r.getD i0 Val.na != Val.vstr "合計")).map f := by
    rw [hout]
    exact hmap
  constructor
  · intro r hr
    rw [hrows] at hr
    obtain ⟨r0, hr0, rfl⟩ := List.mem_map.mp hr
    rw [hpres]
    exact bne_iff_ne.mp (List.mem_filter.mp hr0).2
  · refine ⟨df1, hrn, ?_⟩
    rw [hrows, List.forall₂_map_left_iff, List.forall₂_same]
    intro x _
    exact hpres x

/-- Witness for C3: the cleaned Tokyo row of the concrete frame is not the
sentinel. -/
theorem clean_population_total_row_excluded_witness :
    (dfCleanOK.rows.getD 0 []).getD 1 Val.na ≠ Val.vstr "合計" :=
  (clean_population_total_row_excluded dfRawOK dfCleanOK 1 rfl rfl).1
    (dfCleanOK.rows.getD 0 []) (by decide)

set_option maxHeartbeats 1000000 in
/-- C4: the numeric coercion strips separators and whitespace and parses, any
unparseable value becomes missing rather than an error (`"1,234 "` parses to
`1234`, `"N/A"` becomes missing, and the coercion is total with a
number-or-missing result), and consequently every cell of a numeric-designated
column of a cleaned population table is a number or missing — never a raw
string. -/
theorem numeric_coercion_policy :
    coerceNumeric (Val.vstr "1,234 ") = Val.vnum 1234 ∧
    coerceNumeric (Val.vstr "N/A") = Val.na ∧
    (∀ v, (coerceNumeric v).isNumOrNa = true) ∧
    ∀ df out c j, clean_population_data df = .ok out → c ∈ numeric_cols →
      colIdx out c = some j → ∀ r ∈ out.rows, (r.getD j Val.na).isNumOrNa = true := by
  refine ⟨by decide, by decide, coerceNumeric_isNumOrNa, ?_⟩
  intro df out c j h hc hj r hr
  obtain ⟨df1, i0, hrn, hcp, hout⟩ := clean_population_data_ok_decomp h
  subst hout
  have hj2 : colIdx
      { cols := df1.cols,
        rows := df1.rows.filter (fun r => r.getD i0 Val.na != Val.vstr "合計") }
      c = some j := by
    unfold colIdx at hj ⊢
    rw [coerce_step_cols] at hj
    exact hj
  have hsh := coerce_fold_shape_of_mem numeric_cols
      { cols := df1.cols,
        rows := df1.rows.filter (fun r => r.getD i0 Val.na != Val.vstr "合計") } c j hc hj2
  exact hsh r hr

/-- Witness for C4: the cleaned total-population cell of the concrete frame is
numeric-or-missing. -/
theorem numeric_coercion_policy_witness :
    ((dfCleanOK.rows.getD 0 []).getD 4 Val.na).isNumOrNa = true :=
  numeric_coercion_policy.2.2.2 dfRawOK dfCleanOK "総人口" 4 rfl (by decide) rfl
    (dfCleanOK.rows.getD 0 []) (by decide)

/-- C5 counterexample: the claim asserts that `clean_age_data` keeps exactly
the rows whose sex column (position 2) equals the total sentinel.  On this
frame the reduced output keeps a row whose sex cell is `男`, because the code
actually filters on position 1 (the prefecture-level name) being `合計`, and
drops a row whose sex cell is the total sentinel `計`. -/
theorem clean_age_sex_counterexample :
    clean_age_data [(2024, dfAgeRaw)] = [(2024, dfAgeOut)] ∧
    (dfAgeOut.rows.getD 0 []).getD 2 Val.na = Val.vstr "男" ∧
    Val.vstr "男" ≠ Val.vstr "計" ∧
    dfAgeOut.rows.length = 1 :=
  ⟨by decide, rfl, by decide, rfl⟩

/-- C5 (amended): for each year, `clean_age_data` selects exactly the row(s)
whose second column (position 1, the prefecture-level name) equals `合計` —
the national-total block, all sex codes included; a year with no such row
contributes no entry to the reduced output and raises no error.  The selected
rows keep their name and sex cells unchanged, in order. -/
theorem clean_age_total_selection (ageData : List (Nat × DF)) (yd : Nat × DF) :
    clean_age_data ageData = ageData.filterMap process_age_year ∧
    (process_age_year yd = none ↔ age_total_rows yd.2 = []) ∧
    ∀ out, process_age_year yd = some out → out.1 = yd.1 ∧
      (∀ r ∈ out.2.rows, r.getD 1 Val.na = Val.vstr "合計") ∧
      List.Forall₂
        (fun r' r => r'.getD 1 Val.na = r.getD 1 Val.na ∧ r'.getD 2 Val.na = r.getD 2 Val.na)
        out.2.rows (age_total_rows yd.2) := by
  refine ⟨rfl, ?_, ?_⟩
  · unfold process_age_year
    cases htr : age_total_rows yd.2 with
    | nil => simp [htr]
    | cons a l => simp [htr]
  · intro out hout
    unfold process_age_year at hout
    cases htr : age_total_rows yd.2 with
    | nil =>
      rw [htr] at hout
      exact absurd hout (by simp)
    | cons a l =>
      rw [htr] at hout
      simp only [List.isEmpty_cons, if_neg] at hout
      have hout' : out =
          (yd.1, { cols := yd.2.cols,
                   rows := (a :: l).map (coerce_age_row yd.2.cols.length) }) := by
        cases hout
        rfl
      subst hout'
      refine ⟨rfl, ?_, ?_⟩
      · intro r hr
        obtain ⟨r0, hr0, rfl⟩ := List.mem_map.mp hr
        have hr0' : r0 ∈ age_total_rows yd.2 := by rw [htr]; exact hr0
        have hpred := (List.mem_filter.mp hr0').2
        rw [beq_iff_eq] at hpred
        show (coerce_from 0 yd.2.cols.length r0).getD 1 Val.na = Val.vstr "合計"
        rw [coerce_from_getD_lt _ _ 0 1 (by omega)]
        exact hpred
      · show List.Forall₂ _ ((a :: l).map (coerce_age_row yd.2.cols.length)) (a :: l)
        rw [List.forall₂_map_left_iff, List.forall₂_same]
        intro x _
        exact ⟨coerce_from_getD_lt _ x 0 1 (by omega), coerce_from_getD_lt _ x 0 2 (by omega)⟩

/-- Witness for C5: the kept concrete row indeed carries `合計` in position 1. -/
theorem clean_age_total_selection_witness :
    (dfAgeOut.rows.getD 0 []).getD 1 Val.na = Val.vstr "合計" :=
  ((clean_age_total_selection [(2024, dfAgeRaw)] (2024, dfAgeRaw)).2.2
    (2024, dfAgeOut) rfl).2.1 (dfAgeOut.rows.getD 0 []) (by decide)

/-- C6: on reduced age tables whose cells from position 3 onward are numeric
or missing, the time-series aggregation succeeds and produces exactly one row
per year having a `計` total row — years without one are omitted, not
zero-filled — and each cohort value is the sum of the bracket values over the
cohort's fixed index range, missing values contributing zero. -/
theorem time_series_cohort_sums (ageData : List (Nat × DF))
    (h : ∀ yd ∈ ageData, ∀ r ∈ yd.2.rows, ∀ k, 3 ≤ k → k < yd.2.cols.length →
      (r.getD k Val.na).isNumOrNa = true) :
    time_series_rows ageData = some (time_series_rows_spec ageData) ∧
    (time_series_rows_spec ageData).length =
      (ageData.filter (fun yd => !(year_total_row yd.2).isEmpty)).length := by
  refine ⟨?_, time_series_rows_spec_length ageData⟩
  induction ageData with
  | nil => rfl
  | cons yd rest ih =>
    obtain ⟨y, df⟩ := yd
    have hdf := h (y, df) (List.mem_cons_self _ _)
    have hrest := ih (fun yd2 h2 => h yd2 (List.mem_cons_of_mem _ h2))
    cases hyr : year_total_row df with
    | nil =>
      show time_series_rows ((y, df) :: rest) = some (time_series_rows_spec ((y, df) :: rest))
      unfold time_series_rows time_series_rows_spec
      rw [List.filterMap_cons]
      simp only [hyr]
      exact hrest
    | cons row rl =>
      have hrowmem : row ∈ year_total_row df := by
        rw [hyr]
        exact List.mem_cons_self row rl
      have hrow : row ∈ df.rows := (List.mem_filter.mp hrowmem).1
      have hsh : ∀ i : Nat, i + 4 < df.cols.length →
          (row.getD (i + 4) Val.na).isNumOrNa = true :=
        fun i hin => hdf row hrow (i + 4) (by omega) hin
      have h1 := cohort_total_eq_spec df.cols.length row child_indices
        (fun i _ hin => hsh i hin)
      have h2 := cohort_total_eq_spec df.cols.length row working_indices
        (fun i _ hin => hsh i hin)
      have h3 := cohort_total_eq_spec df.cols.length row elderly_indices
        (fun i _ hin => hsh i hin)
      show time_series_rows ((y, df) :: rest) = some (time_series_rows_spec ((y, df) :: rest))
      unfold time_series_rows time_series_rows_spec
      rw [List.filterMap_cons]
      simp only [hyr, h1, h2, h3, hrest]
      rfl

/-- Witness for C6: a single-year mapping with a seven-column reduced frame. -/
theorem time_series_cohort_sums_witness :
    time_series_rows [(2022, dfAgeTS)] = some (time_series_rows_spec [(2022, dfAgeTS)]) :=
  (time_series_cohort_sums [(2022, dfAgeTS)] (by
    intro yd hyd r hr k hk3 hklt
    fin_cases hyd
    fin_cases hr
    have h7 : k < 7 := hklt
    interval_cases k <;> decide)).1

/-- C10: the cohort summation is total on tables narrower than the full
age-bracket layout — every cohort index whose absolute position `idx + 4`
falls outside the columns contributes nothing, and the sum is exactly over
the in-range indices. -/
theorem cohort_total_bounds (ncols : Nat) (row : List Val) (idxs : List Nat)
    (h : ∀ i ∈ idxs, i + 4 < ncols → (row.getD (i + 4) Val.na).isNumOrNa = true) :
    cohort_total ncols row idxs =
      some (((idxs.filter (fun i => decide (i + 4 < ncols))).map
        (fun i => (row.getD (i + 4) Val.na).toInt)).sum) := by
  rw [cohort_total_eq_spec ncols row idxs h, cohort_total_spec_filter]

/-- Witness for C10: the working-age cohort of a seven-column table lies
entirely out of range and sums over no indices. -/
theorem cohort_total_bounds_witness :
    cohort_total 7 (dfAgeTS.rows.getD 0 []) working_indices =
      some (((working_indices.filter (fun i => decide (i + 4 < 7))).map
        (fun i => ((dfAgeTS.rows.getD 0 []).getD (i + 4) Val.na).toInt)).sum) :=
  cohort_total_bounds 7 (dfAgeTS.rows.getD 0 []) working_indices (by decide)

/-- C7: the population pyramid extractor produces a result exactly when the
selected year is present and rows tagged `男` and rows tagged `女` both exist
for it; otherwise it returns the defined unavailable signal `none` rather than
an error or a partial pyramid. -/
theorem pyramid_requires_both_sexes (ageData : List (Nat × DF)) (year : Nat) :
    (create_population_pyramid ageData year).isSome = true ↔
      ∃ df, ageData.lookup year = some df ∧
        df.rows.filter (fun r => r.getD 2 Val.na == Val.vstr "男") ≠ [] ∧
        df.rows.filter (fun r => r.getD 2 Val.na == Val.vstr "女") ≠ [] := by
  cases hl : ageData.lookup year with
  | none =>
    have hval : create_population_pyramid ageData year = none := by
      unfold create_population_pyramid
      rw [hl]
    rw [hval]
    simp
  | some df =>
    have hred : create_population_pyramid ageData year =
        (match df.rows.filter (fun r => r.getD 2 Val.na == Val.vstr "男"),
               df.rows.filter (fun r => r.getD 2 Val.na == Val.vstr "女") with
         | m :: _, f :: _ => some ((m.drop 4).take 21, (f.drop 4).take 21)
         | _, _ => none) := by
      unfold create_population_pyramid
      rw [hl]
    cases hm : df.rows.filter (fun r => r.getD 2 Val.na == Val.vstr "男") with
    | nil =>
      rw [hm] at hred
      rw [hred]
      constructor
      · intro hs
        cases hs
      · rintro ⟨df', hdf', hne, _⟩
        cases Option.some.inj hdf'
        exact absurd hm hne
    | cons m mt =>
      cases hf : df.rows.filter (fun r => r.getD 2 Val.na == Val.vstr "女") with
      | nil =>
        rw [hm, hf] at hred
        rw [hred]
        constructor
        · intro hs
          cases hs
        · rintro ⟨df', hdf', _, hne⟩
          cases Option.some.inj hdf'
          exact absurd hf hne
      | cons f ft =>
        rw [hm, hf] at hred
        rw [hred]
        constructor
        · intro _
          exact ⟨df, rfl, by rw [hm]; exact List.cons_ne_nil m mt,
                 by rw [hf]; exact List.cons_ne_nil f ft⟩
        · intro _
          rfl

/-- C8: for every combination of per-year read outcomes, `load_data` with a
readable population file returns the population frame and a year mapping —
never an error: each year of the fixed year set is present in the mapping
with its frame exactly when its read succeeded (its lookup equals the read
result, so a failed year is absent), and the mapping holds nothing else, so
one missing or unreadable file never aborts the other years or the population
load. -/
theorem load_data_partial_availability (pop : DF) (ageRead : Nat → Option DF) :
    (load_data (some pop) ageRead).1 = some pop ∧
    ∃ m : List (Nat × DF), (load_data (some pop) ageRead).2 = some m ∧
      (∀ y ∈ age_years, m.lookup y = ageRead y) ∧
      ∀ p ∈ m, p.1 ∈ age_years ∧ ageRead p.1 = some p.2 := by
  refine ⟨rfl,
    age_years.filterMap (fun y => (ageRead y).map (fun df => (y, df))), rfl, ?_, ?_⟩
  · intro y hy
    exact lookup_filterMap_ageRead age_years ageRead y hy
  · intro p hp
    obtain ⟨y, hy, hg⟩ := List.mem_filterMap.mp hp
    cases hz : ageRead y with
    | none =>
      rw [hz] at hg
      exact Option.noConfusion hg
    | some d =>
      rw [hz] at hg
      cases Option.some.inj hg
      exact ⟨hy, hz⟩

/-- Witness for C8: with only the 2023 read failing, the population frame is
returned and the mapping answers 2022 and 2024 with their frames and 2023
with absence. -/
theorem load_data_partial_availability_witness :
    (load_data (some dfTwoCols) ageReadMissing2023).1 = some dfTwoCols ∧
    ((load_data (some dfTwoCols) ageReadMissing2023).2.getD []).lookup 2022 = some dfAgeTS ∧
    ((load_data (some dfTwoCols) ageReadMissing2023).2.getD []).lookup 2023 = none ∧
    ((load_data (some dfTwoCols) ageReadMissing2023).2.getD []).lookup 2024 = some dfAgeRaw := by
  obtain ⟨h1, m, hm, hlook, _⟩ :=
    load_data_partial_availability dfTwoCols ageReadMissing2023
  rw [hm]
  refine ⟨h1, ?_, ?_, ?_⟩
  · rw [show (some m).getD ([] : List (Nat × DF)) = m from rfl, hlook 2022 (by decide)]
    rfl
  · rw [show (some m).getD ([] : List (Nat × DF)) = m from rfl, hlook 2023 (by decide)]
    rfl
  · rw [show (some m).getD ([] : List (Nat × DF)) = m from rfl, hlook 2024 (by decide)]
    rfl

/-- C9 counterexample: the claim fails in two ways.  (i) Exact count: on a
cleaned one-row table whose ranking cell is missing (from the raw value
`N/A`), `nlargest` drops the `NaN`-keyed row and returns zero rows, not
`min(10, 1) = 1`.  (ii) Disjointness: on a three-row table whose ranking
values are all equal, with `N = 1 < 3/2` of the rows, the first-occurrence
tie-breaking makes Top-1 and Bottom-1 select the same first row, so the Top-N
and Bottom-N selections are not disjoint. -/
theorem ranking_selection_counterexample :
    clean_population_data dfRankRaw = .ok dfRankClean ∧
    dfRankClean.rows.length = 1 ∧
    nlargest 10 dfRankClean "人口増減率" = .ok { cols := dfRankClean.cols, rows := [] } ∧
    (0 : Nat) ≠ min 10 1 ∧
    2 * 1 < dfTie.rows.length ∧
    nlargest 1 dfTie "値" = .ok { cols := dfTie.cols, rows := [[Val.vstr "a", Val.vnum 5]] } ∧
    nsmallest 1 dfTie "値" = .ok { cols := dfTie.cols, rows := [[Val.vstr "a", Val.vnum 5]] } :=
  ⟨rfl, rfl, rfl, by decide, by decide, rfl, rfl⟩

/-- C9 (amended): `nlargest`/`nsmallest` first drop the rows whose ranking
cell is missing.  When the ranking column of a cleaned table has no missing
value, Top-N returns exactly `min(N, row_count)` rows, ordered by descending
ranking value with ties broken by ascending original row position; when
moreover `2N < row_count`, every Top-N ranking value is at least every
Bottom-N ranking value, and if the ranking values are additionally pairwise
distinct the Top-N and Bottom-N row sets are disjoint.  (With ties or missing
values the disjointness and the exact count of the original claim fail.) -/
theorem ranking_top_bottom (n i : Nat) (df top bottom : DF) (col : String)
    (hcol : colIdx df col = some i)
    (hnum : ∀ r ∈ df.rows, (r.getD i Val.na).isVnum = true)
    (htop : nlargest n df col = .ok top)
    (hbot : nsmallest n df col = .ok bottom) :
    top.rows.length = min n df.rows.length ∧
    (sel_desc n i df.rows).Pairwise
      (fun a b => b.1 < a.1 ∨ (a.1 = b.1 ∧ a.2.1 < b.2.1)) ∧
    (2 * n < df.rows.length →
      ((df.rows.map (fun r => r.getD i Val.na)).Nodup →
        ∀ rt ∈ top.rows, rt ∉ bottom.rows) ∧
      ∀ rt ∈ top.rows, ∀ rb ∈ bottom.rows,
        (rb.getD i Val.na).toInt ≤ (rt.getD i Val.na).toInt) := by
  unfold nlargest at htop
  rw [hcol] at htop
  unfold nsmallest at hbot
  rw [hcol] at hbot
  have htop' : top = { cols := df.cols, rows := (sel_desc n i df.rows).map (fun q => q.2.2) } :=
    ((Except.ok.injEq _ _).mp htop).symm
  have hbot' : bottom =
      { cols := df.cols, rows := (sel_asc n i df.rows).map (fun q => q.2.2) } :=
    ((Except.ok.injEq _ _).mp hbot).symm
  subst htop' hbot'
  have hklen : (keyed i df.rows).length = df.rows.length := keyed_from_length 0 df.rows hnum
  refine ⟨?_, ?_, ?_⟩
  · show ((sel_desc n i df.rows).map _).length = _
    rw [List.length_map]
    unfold sel_desc
    rw [List.length_take, sort_desc_length, hklen]
  · exact List.Pairwise.sublist (List.take_sublist _ _)
      (sort_desc_pairwise_lex (fun p q => p.1 < q.1) (keyed i df.rows)
        (keyed_from_pairwise_idx 0 df.rows))
  · intro h2n
    constructor
    · intro hnd rt hrt hrb
      obtain ⟨xt, hxt, rfl⟩ := List.mem_map.mp hrt
      obtain ⟨xb, hxb, heq⟩ := List.mem_map.mp hrb
      obtain ⟨hktop, hctop⟩ := sel_desc_mem_count hxt
      obtain ⟨hkbot, hcbot⟩ := sel_asc_mem_count hxb
      obtain ⟨hrowt, hvalt, _⟩ := keyed_from_mem hktop
      obtain ⟨hrowb, hvalb, _⟩ := keyed_from_mem hkbot
      rw [heq, hvalt] at hvalb
      have hkeq : xb.1 = xt.1 := ((Val.vnum.injEq _ _).mp hvalb).symm
      rw [hkeq] at hcbot
      have hndk : ((keyed i df.rows).map (fun q => q.1)).Nodup := by
        show ((keyed_from i 0 df.rows).map (fun q => q.1)).Nodup
        rw [keyed_from_map_fst 0 df.rows hnum]
        have hmm : df.rows.map (fun r => (r.getD i Val.na).toInt) =
            (df.rows.map (fun r => r.getD i Val.na)).map Val.toInt := by
          rw [List.map_map]
          rfl
        rw [hmm]
        refine List.Nodup.map_on ?_ hnd
        intro x hx y hy hxy
        obtain ⟨rx, hrx, rfl⟩ := List.mem_map.mp hx
        obtain ⟨ry, hry, rfl⟩ := List.mem_map.mp hy
        obtain ⟨mx, hmx⟩ := isVnum_exists (hnum rx hrx)
        obtain ⟨my, hmy⟩ := isVnum_exists (hnum ry hry)
        rw [hmx, hmy] at hxy ⊢
        show Val.vnum mx = Val.vnum my
        have : mx = my := hxy
        rw [this]
      have hceq : List.countP (fun z => z.1 == xt.1) (keyed i df.rows) ≤ 1 := by
        have hcnt := List.nodup_iff_count_le_one.mp hndk xt.1
        rw [List.count_eq_countP, List.countP_map] at hcnt
        exact hcnt
      have hpartition :=
        List.length_eq_countP_add_countP (fun z => decide (xt.1 < z.1)) (keyed i df.rows)
      have hsplit : List.countP
          (fun z => decide ¬(decide (xt.1 < z.1) = true)) (keyed i df.rows) ≤
          List.countP (fun z => decide (z.1 < xt.1)) (keyed i df.rows) +
          List.countP (fun z => z.1 == xt.1) (keyed i df.rows) := by
        apply countP_le_countP_add_countP
        intro a _ hp
        simp only [decide_eq_true_eq] at hp ⊢
        rcases lt_trichotomy a.1 xt.1 with hl | he | hg
        · exact Or.inl (by simpa using hl)
        · exact Or.inr (beq_iff_eq.mpr he)
        · exact absurd hg hp
      omega
    · intro rt hrt rb hrb
      obtain ⟨xt, hxt, rfl⟩ := List.mem_map.mp hrt
      obtain ⟨xb, hxb, rfl⟩ := List.mem_map.mp hrb
      obtain ⟨hktop, hctop⟩ := sel_desc_mem_count hxt
      obtain ⟨hkbot, hcbot⟩ := sel_asc_mem_count hxb
      obtain ⟨_, hvalt, _⟩ := keyed_from_mem hktop
      obtain ⟨_, hvalb, _⟩ := keyed_from_mem hkbot
      rw [hvalt, hvalb]
      show xb.1 ≤ xt.1
      by_contra hgt
      have hlt : xt.1 < xb.1 := by omega
      have hmono : List.countP
          (fun z => decide ¬(decide (xt.1 < z.1) = true)) (keyed i df.rows) ≤
          List.countP (fun z => decide (z.1 < xb.1)) (keyed i df.rows) := by
        apply List.countP_mono_left
        intro a _ hp
        simp only [decide_eq_true_eq] at hp ⊢
        omega
      have hpartition :=
        List.length_eq_countP_add_countP (fun z => decide (xt.1 < z.1)) (keyed i df.rows)
      omega

/-- Witness for C9: on a three-row frame with distinct ranking values, Top-1
has exactly one row and that row is not in Bottom-1. -/
theorem ranking_top_bottom_witness :
    dfRank3Top.rows.length = min 1 dfRank3.rows.length ∧
    dfRank3Top.rows.getD 0 [] ∉ dfRank3Bot.rows := by
  have h := ranking_top_bottom 1 1 dfRank3 dfRank3Top dfRank3Bot "値" rfl (by decide) rfl rfl
  exact ⟨h.1, (h.2.2 (by decide)).1 (by decide) (dfRank3Top.rows.getD 0 []) (by decide)⟩

/-- C2: when the prefecture-name column `都道府県名` does not exist after the
positional renaming step, `clean_population_data` fails with the descriptive
column-missing error (pandas `KeyError`, the spec's `SchemaError`), naming the
missing column, rather than producing a frame. -/
theorem clean_population_missing_prefecture_error (df df1 : DF)
    (h1 : rename_step df = .ok df1) (h2 : "都道府県名" ∉ df1.cols) :
    clean_population_data df = .error (.keyError "都道府県名") := by
  have hidx : colIdx df1 "都道府県名" = none := findIdx?_none_of_not_mem h2
  have hd : drop_total_step df1 = .error (.keyError "都道府県名") := by
    rw [drop_total_step, hidx]
  unfold clean_population_data
  rw [h1]
  show coerce_step <$> drop_total_step df1 = _
  rw [hd]
  rfl

/-- Witness for C2: a malformed two-column header. -/
theorem clean_population_missing_prefecture_error_witness :
    clean_population_data dfTwoCols = .error (.keyError "都道府県名") :=
  clean_population_missing_prefecture_error dfTwoCols dfTwoCols rfl (by decide)

end PopReport
